import Mathlib

/-!
Verification of the eth-daq-software server core (src/server/server.go).

The Go code is shallowly embedded: float64 arithmetic is modelled exactly
over ℚ, byte slices as lists of ℕ, Go maps as association lists, and the
side effects relevant to the claims (closing connections, storing handles,
scheduling file writes) as explicit event lists or returned values.
Wall-clock-dependent behaviour (the 1-second throughput-rate window, the
UnixNano timestamps) is parameterised by an explicit timestamp argument.

The file is organised as: all definitions first, then all theorems.
-/

namespace EthDaq

/-! ## Definitions

### CircularBuffer (server.go lines 45-118) -/

/-- Embeds the Go struct CircularBuffer; `data` is the fixed-size slice. -/
structure CircularBuffer where
  data : List ℚ
  size : ℕ
  count : ℕ
  head : ℕ
  sum : ℚ
  isFullOnce : Bool
deriving Repr, DecidableEq

/-- Embeds NewCircularBuffer: a zeroed slice of the given size. -/
def NewCircularBuffer (size : ℕ) : CircularBuffer :=
  { data := List.replicate size 0
    size := size
    count := 0
    head := 0
    sum := 0
    isFullOnce := false }

/-- Embeds CircularBuffer.Add: subtract the evicted slot when full,
otherwise bump count; write the slot, add to the running sum, advance the
head modulo size, and latch isFullOnce. -/
def CircularBuffer.Add (cb : CircularBuffer) (value : ℚ) : CircularBuffer :=
  let sum1 := if cb.count = cb.size then cb.sum - cb.data.getD cb.head 0 else cb.sum
  let count1 := if cb.count = cb.size then cb.count else cb.count + 1
  let data1 := cb.data.set cb.head value
  let sum2 := sum1 + value
  let head1 := (cb.head + 1) % cb.size
  let full1 := if count1 = cb.size ∧ cb.isFullOnce = false then true else cb.isFullOnce
  { data := data1, size := cb.size, count := count1, head := head1,
    sum := sum2, isFullOnce := full1 }

/-- Embeds CircularBuffer.GetAverage: sum/count, or 0 when count is 0. -/
def CircularBuffer.GetAverage (cb : CircularBuffer) : ℚ :=
  if cb.count = 0 then 0 else cb.sum / (cb.count : ℚ)

/-- Embeds CircularBuffer.IsFullOnce. -/
def CircularBuffer.IsFullOnce (cb : CircularBuffer) : Bool :=
  cb.isFullOnce

/-- Feeding a whole list of values through Add, in order. -/
def addAll (cb : CircularBuffer) (vs : List ℚ) : CircularBuffer :=
  vs.foldl CircularBuffer.Add cb

/-! ### SampleDecoder: DataBuffer.processBytes (server.go lines 219-275) -/

/-- Which ring a decoded sample is fed to: `primary` is circularBuffer
(ring #1), `secondary` is circularBufferB (ring #2, thermocouple probe). -/
inductive RingSel where
  | primary
  | secondary
deriving Repr, DecidableEq

/-- binary.LittleEndian.Uint16 over two bytes. -/
def u16 (b0 b1 : ℕ) : ℕ := b0 + 256 * b1

/-- Reinterpreting a uint16 value as a signed int16 (Go's int16(...) cast). -/
def toInt16 (u : ℕ) : ℤ :=
  if u % 65536 < 32768 then (u % 65536 : ℤ) else (u % 65536 : ℤ) - 65536

/-- One iteration of the processBytes loop body: the per-port transform of
a complete uint16 sample, the ring it is added to, and the updated
thermocouple interleave selector (toggled only on the thermocouple path). -/
def decodeStep (port : ℕ) (sel : Bool) (u : ℕ) : (RingSel × ℚ) × Bool :=
  if port = 5555 then
    ((RingSel.primary, (toInt16 u : ℚ) * (-1) / 32768 * 2.5), sel)
  else if port = 5556 then
    ((RingSel.primary, (u : ℚ) * 187.5e-6 - 6.144), sel)
  else if sel then
    ((RingSel.primary, (toInt16 u : ℚ) / 4 * 0.03125), !sel)
  else
    ((RingSel.secondary, (toInt16 u : ℚ)), !sel)

/-- The loop of processBytes over the temporary buffer: consume complete
byte pairs, return the decoded samples in order, the final interleave
selector, and the leftover byte when the buffer length is odd. -/
def processPairs (port : ℕ) (sel : Bool) : List ℕ → List (RingSel × ℚ) × Bool × Option ℕ
  | [] => ([], sel, none)
  | [b] => ([], sel, some b)
  | b0 :: b1 :: rest =>
    let s := decodeStep port sel (u16 b0 b1)
    let r := processPairs port s.2 rest
    (s.1 :: r.1, r.2)

/-- The decoder state carried across processBytes calls: the optional
leftover byte and the thermocouple interleave selector. -/
structure DecState where
  leftoverByte : Option ℕ
  tcInterleaveSelectInternal : Bool
deriving Repr, DecidableEq

def optToList : Option ℕ → List ℕ
  | none => []
  | some b => [b]

/-- Embeds DataBuffer.processBytes: prepend the carried leftover byte,
decode all complete pairs, and carry the new trailing byte when the
temporary buffer length is odd. Decoded samples are returned as a list of
(ring, value) pairs in decode order. -/
def processBytes (port : ℕ) (st : DecState) (newBytes : List ℕ) :
    List (RingSel × ℚ) × DecState :=
  let tmp := optToList st.leftoverByte ++ newBytes
  let r := processPairs port st.tcInterleaveSelectInternal tmp
  (r.1, ⟨r.2.2, r.2.1⟩)

/-- Feeding a list of chunks through processBytes sequentially,
concatenating the decoded outputs. -/
def consumeChunks (port : ℕ) (st : DecState) : List (List ℕ) → List (RingSel × ℚ) × DecState
  | [] => ([], st)
  | c :: cs =>
    let r := processBytes port st c
    let r2 := consumeChunks port r.2 cs
    (r.1 ++ r2.1, r2.2)

/-- The complete little-endian uint16 samples contained in a byte list. -/
def u16List : List ℕ → List ℕ
  | b0 :: b1 :: rest => u16 b0 b1 :: u16List rest
  | _ => []

/-- The trailing byte of a list of odd length, if any. -/
def lastOdd : List ℕ → Option ℕ
  | [] => none
  | [b] => some b
  | _ :: _ :: rest => lastOdd rest

/-- Modelled from the spec: the claimed Type-C behaviour, written from the
spec's words as the comparandum for the refinement claim C7 — samples
alternate between internal and probe, toggling after every sample and
starting with `sel`; internal samples are transformed signed16/4*0.03125
and routed to ring #1, probe samples stay raw signed16 and go to ring #2. -/
def specTypeCInterleave : Bool → List ℕ → List (RingSel × ℚ)
  | _, [] => []
  | sel, u :: us =>
    (if sel then (RingSel.primary, (toInt16 u : ℚ) / 4 * 0.03125)
     else (RingSel.secondary, (toInt16 u : ℚ))) :: specTypeCInterleave (!sel) us

/-! ### Session (DataBuffer, server.go lines 138-347) -/

/-- The flush threshold BUFFER_SIZE = 10 * 1024 * 1024 (server.go line 24). -/
def BUFFER_SIZE : ℕ := 10 * 1024 * 1024

/-- Embeds SanitizeFilename (server.go lines 599-607): the Go
strings.NewReplacer maps each single character ":" and "." to "_" and
drops "[" and "]". -/
def sanitizeChar (c : Char) : Option Char :=
  if c = ':' ∨ c = '.' then some '_'
  else if c = '[' ∨ c = ']' then none
  else some c

def SanitizeFilename (ip : String) : String :=
  String.mk (ip.toList.filterMap sanitizeChar)

/-- Embeds the DataBuffer struct. The rate/lastCheck fields depend on
wall-clock time and are not claim-relevant, so only the byte counter is
kept of the rate accounting. -/
structure DBModel where
  port : ℕ
  clientIP : String
  buffer : List ℕ
  bytesReceived : ℤ
  circularBuffer : CircularBuffer
  circularBufferB : CircularBuffer
  leftoverByte : Option ℕ
  tcInterleaveSelectInternal : Bool
  uuid : String
deriving Repr, DecidableEq

/-- Embeds NewDataBuffer (server.go lines 157-187). For ports other than
5557 the Go code leaves circularBufferB nil and the selector false; the
nil ring is modelled by a capacity-0 ring, which is never touched on the
ports the server listens on. -/
def NewDataBuffer (port : ℕ) (clientIP : String) (avgWindowSize : ℕ) (uuid : String) :
    DBModel :=
  if port = 5557 then
    { port := port, clientIP := SanitizeFilename clientIP, buffer := [],
      bytesReceived := 0,
      circularBuffer := NewCircularBuffer avgWindowSize,
      circularBufferB := NewCircularBuffer avgWindowSize,
      leftoverByte := none, tcInterleaveSelectInternal := true, uuid := uuid }
  else
    { port := port, clientIP := SanitizeFilename clientIP, buffer := [],
      bytesReceived := 0,
      circularBuffer := NewCircularBuffer avgWindowSize,
      circularBufferB := NewCircularBuffer 0,
      leftoverByte := none, tcInterleaveSelectInternal := false, uuid := uuid }

/-- Routes each decoded (ring, value) pair to its ring's Add, in order:
`primary` is db.circularBuffer, `secondary` is db.circularBufferB. -/
def applyOut : CircularBuffer × CircularBuffer → List (RingSel × ℚ) →
    CircularBuffer × CircularBuffer
  | p, [] => p
  | p, (RingSel.primary, v) :: rest => applyOut (p.1.Add v, p.2) rest
  | p, (RingSel.secondary, v) :: rest => applyOut (p.1, p.2.Add v) rest

/-- DataBuffer.processBytes as a state update on the session: decode and
feed the rings, then store the new leftover byte and selector. -/
def DBModel.processBytes (db : DBModel) (newBytes : List ℕ) : DBModel :=
  let r := EthDaq.processBytes db.port
    ⟨db.leftoverByte, db.tcInterleaveSelectInternal⟩ newBytes
  let rings := applyOut (db.circularBuffer, db.circularBufferB) r.1
  { db with
    circularBuffer := rings.1
    circularBufferB := rings.2
    leftoverByte := r.2.leftoverByte
    tcInterleaveSelectInternal := r.2.tcInterleaveSelectInternal }

/-- The capture-file name built by DataBuffer.Flush (server.go lines
289-294): fmt.Sprintf("port%d_%s_%s_%d.bin", port, clientIP, uuid, now). -/
def flushFilename (port : ℕ) (clientIP uuid : String) (ts : ℕ) : String :=
  "port" ++ toString port ++ "_" ++ clientIP ++ "_" ++ uuid ++ "_" ++ toString ts ++ ".bin"

/-- Embeds DataBuffer.Flush: no-op on an empty buffer; otherwise copy the
buffer, build the filename, reset the buffer to empty, and schedule the
asynchronous write (returned as the (filename, payload) task). `ts` stands
for time.Now().UnixNano(). -/
def DBModel.Flush (db : DBModel) (ts : ℕ) : DBModel × Option (String × List ℕ) :=
  if db.buffer.length = 0 then (db, none)
  else ({ db with buffer := [] },
    some (flushFilename db.port db.clientIP db.uuid ts, db.buffer))

/-- Embeds DataBuffer.AddData (server.go lines 196-217): append to the
accumulation buffer, count the bytes, run the decoder on the new bytes,
and flush synchronously when the buffer length has reached BUFFER_SIZE.
The 1-second rate-window recomputation depends on wall-clock time and
touches neither the buffer nor the flush decision, so it is elided. -/
def DBModel.AddData (db : DBModel) (data : List ℕ) (ts : ℕ) :
    DBModel × Option (String × List ℕ) :=
  let db1 := { db with
    buffer := db.buffer ++ data
    bytesReceived := db.bytesReceived + (data.length : ℤ) }
  let db2 := db1.processBytes data
  if BUFFER_SIZE ≤ db2.buffer.length then db2.Flush ts else (db2, none)

/-- The capture-file name built by the final flush in Server.Shutdown
(server.go lines 961-965): fmt.Sprintf("port%d_%s_%d.bin", ...) — no uuid
component. -/
def shutdownFlushFilename (port : ℕ) (clientIP : String) (ts : ℕ) : String :=
  "port" ++ toString port ++ "_" ++ clientIP ++ "_" ++ toString ts ++ ".bin"

/-- Embeds the per-buffer final flush inside Server.Shutdown (server.go
lines 948-977): copy the buffer, clear it, and when non-empty write the
data synchronously under shutdownFlushFilename. -/
def shutdownFlushBuffer (db : DBModel) (ts : ℕ) : DBModel × Option (String × List ℕ) :=
  ({ db with buffer := [] },
    if db.buffer.length = 0 then none
    else some (shutdownFlushFilename db.port db.clientIP ts, db.buffer))

/-- Modelled from the spec: the claimed capture-file naming scheme
port{PORT}_{sanitizedIP}[_{uuid}]_{unixNanoTimestamp}.bin, where the UUID
component is included exactly when the device UUID is known (spec-side
comparandum for C9). -/
def claimedCaptureFilename (port : ℕ) (clientIP : String) (uuid : Option String)
    (ts : ℕ) : String :=
  "port" ++ toString port ++ "_" ++ clientIP
    ++ (match uuid with
        | some u => "_" ++ u
        | none => "")
    ++ "_" ++ toString ts ++ ".bin"

/-! ### Connection registry (server.go lines 349-536, 998-1020) -/

/-- Embeds the composite BufferKey (server.go lines 28-31). -/
structure BufferKey where
  IP : String
  Port : ℕ
deriving Repr, DecidableEq

/-- Go map lookup over an association list with unique keys. -/
def mapFind {α : Type} : List (BufferKey × α) → BufferKey → Option α
  | [], _ => none
  | kv :: rest, k => if kv.1 = k then some kv.2 else mapFind rest k

/-- Go map assignment: replace the existing entry or append a new one. -/
def mapInsert {α : Type} : List (BufferKey × α) → BufferKey → α → List (BufferKey × α)
  | [], k, v => [(k, v)]
  | kv :: rest, k, v => if kv.1 = k then (k, v) :: rest else kv :: mapInsert rest k v

/-- Go map delete. -/
def mapErase {α : Type} : List (BufferKey × α) → BufferKey → List (BufferKey × α)
  | [], _ => []
  | kv :: rest, k => if kv.1 = k then rest else kv :: mapErase rest k

/-- The observable actions of the registry paths: closing a connection
handle, storing a handle in activeConns, and flushing a session buffer.
Connections are identified by numeric handles. -/
inductive ConnEvent where
  | close (conn : ℕ)
  | store (key : BufferKey) (conn : ℕ)
  | flushBuffer (key : BufferKey)
deriving Repr, DecidableEq

/-- Embeds Server.registerConnection (server.go lines 999-1012): when an
entry already exists for the key, close it, then store the new handle.
Returns the emitted events in program order and the new activeConns map. -/
def registerConnection (activeConns : List (BufferKey × ℕ)) (key : BufferKey)
    (conn : ℕ) : List ConnEvent × List (BufferKey × ℕ) :=
  ((match mapFind activeConns key with
    | some existing => [ConnEvent.close existing]
    | none => []) ++ [ConnEvent.store key conn],
    mapInsert activeConns key conn)

/-- Embeds the deferred cleanup of Server.HandleConnection (server.go
lines 485-508): always flush the session buffer and close the connection;
then, only when this connection is still the one recorded in activeConns,
delete the activeConns entry and the buffers entry for the key. Returns
the events in program order plus the new activeConns and buffers maps. -/
def handleConnCleanup {β : Type} (activeConns : List (BufferKey × ℕ))
    (buffers : List (BufferKey × β)) (key : BufferKey) (conn : ℕ) :
    List ConnEvent × List (BufferKey × ℕ) × List (BufferKey × β) :=
  let base := [ConnEvent.flushBuffer key, ConnEvent.close conn]
  match mapFind activeConns key with
  | some current =>
    if current = conn then
      (base, mapErase activeConns key, mapErase buffers key)
    else (base, activeConns, buffers)
  | none => (base, activeConns, buffers)

def isClose (c : ℕ) : ConnEvent → Bool
  | ConnEvent.close c2 => c2 = c
  | _ => false

/-- How many times connection handle c is closed in an event trace. -/
def countClose (t : List ConnEvent) (c : ℕ) : ℕ := (t.filter (isClose c)).length

def key0 : BufferKey := ⟨"192.168.1.5", 5555⟩

/-- The eviction scenario of claim C4: connection 1 registers for key0,
connection 2 registers for the same key (evicting 1), then connection 1's
read loop exits and its handler cleanup runs. -/
def evictionScenarioTrace : List ConnEvent :=
  let r1 := registerConnection [] key0 1
  let r2 := registerConnection r1.2 key0 2
  let r3 := handleConnCleanup r2.2 ([(key0, 0)] : List (BufferKey × ℕ)) key0 1
  r1.1 ++ r2.1 ++ r3.1

/-! ### Handshake (server.go lines 1022-1126) -/

/-- The UUID-stamping loop at the end of Server.HandleHandshakeConnection
(server.go lines 1100-1106): for every buffers entry whose key.IP equals
the sanitized client IP, set the session's uuid. -/
def updateBuffersUUID (buffers : List (BufferKey × DBModel)) (sanitizedIP uuid : String) :
    List (BufferKey × DBModel) :=
  buffers.map (fun kv => if kv.1.IP = sanitizedIP then (kv.1, { kv.2 with uuid := uuid }) else kv)

/-- The handshake's effect on the buffers map, starting from the client
IP as the handler receives it: the handler sanitizes the IP and then
stamps the UUID via updateBuffersUUID. Note that Server.StartListener
(server.go lines 401-405) creates buffers map keys from the raw,
unsanitized client IP. -/
def handshakeUpdateBuffers (buffers : List (BufferKey × DBModel)) (clientIP uuid : String) :
    List (BufferKey × DBModel) :=
  updateBuffersUUID buffers (SanitizeFilename clientIP) uuid

/-- The parsed handshake JSON fields (server.go lines 1038-1047); sample
rates arrive as strings. -/
structure HandshakeData where
  uuid : String
  mac : String
  firmwareVersion : String
  hardwareVersion : String
  vgsSampleRate : String
  vdsSampleRate : String
  tcSampleRate : String
deriving Repr, DecidableEq

/-- Embeds the IPConnection record (server.go lines 33-43). -/
structure IPConnection where
  activePorts : List ℕ
  totalBytes : ℤ
  uuid : String
  mac : String
  firmwareVersion : String
  hardwareVersion : String
  vgsSampleRate : ℤ
  vdsSampleRate : ℤ
  tcSampleRate : ℤ
deriving Repr, DecidableEq

def isDigitChar (c : Char) : Bool := decide ('0' ≤ c ∧ c ≤ '9')

def digitsToNat (ds : List Char) : ℕ :=
  ds.foldl (fun a c => 10 * a + (c.toNat - 48)) 0

/-- Whether a string is the decimal representation of an integer: an
optional single leading sign followed by at least one digit, digits only. -/
def intStringShapeOK (s : String) : Bool :=
  match s.toList with
  | [] => false
  | c :: rest =>
    let ds := if c = '+' ∨ c = '-' then rest else c :: rest
    !ds.isEmpty && ds.all isDigitChar

/-- Embeds Go strconv.Atoi: (value, ok). A string that is not a decimal
integer yields (0, false) (ErrSyntax with value 0); a decimal integer out
of the signed-64-bit range yields the clamped bound with false (ErrRange);
otherwise the parsed value with true. -/
def atoi (s : String) : Int × Bool :=
  if intStringShapeOK s then
    let p : Bool × List Char :=
      match s.toList with
      | c :: rest =>
        if c = '-' then (true, rest)
        else if c = '+' then (false, rest)
        else (false, c :: rest)
      | [] => (false, [])
    let n : Int := (digitsToNat p.2 : ℤ)
    let v : Int := if p.1 then -n else n
    if v < -(2 ^ 63) then (-(2 ^ 63), false)
    else if 2 ^ 63 - 1 < v then (2 ^ 63 - 1, false)
    else (v, true)
  else (0, false)

/-- Embeds the state mutation of Server.HandleHandshakeConnection on the
connectedIPs record for the sanitized client IP (server.go lines
1058-1097): reject (returning none, no mutation) when the required UUID is
empty; otherwise update the existing record or create a fresh one, with
each sample rate taken from strconv.Atoi with the error discarded. -/
def handleHandshake (existing : Option IPConnection) (hd : HandshakeData) :
    Option IPConnection :=
  if hd.uuid = "" then none
  else some (match existing with
    | some ipConn =>
      { ipConn with
        uuid := hd.uuid
        firmwareVersion := hd.firmwareVersion
        hardwareVersion := hd.hardwareVersion
        mac := hd.mac
        vdsSampleRate := (atoi hd.vdsSampleRate).1
        vgsSampleRate := (atoi hd.vgsSampleRate).1
        tcSampleRate := (atoi hd.tcSampleRate).1 }
    | none =>
      { activePorts := [], totalBytes := 0, uuid := hd.uuid, mac := hd.mac,
        firmwareVersion := hd.firmwareVersion, hardwareVersion := hd.hardwareVersion,
        vdsSampleRate := (atoi hd.vdsSampleRate).1,
        vgsSampleRate := (atoi hd.vgsSampleRate).1,
        tcSampleRate := (atoi hd.tcSampleRate).1 })

/-! ### Concrete inputs used by witnesses -/

/-- A concrete session with a nonempty accumulation buffer. -/
def dbNonempty : DBModel :=
  { NewDataBuffer 5555 "192.168.1.5" 5 "u1" with buffer := [7] }

/-- A concrete handshake whose three sample-rate strings all fail to parse
as integers. -/
def hdBad : HandshakeData :=
  { uuid := "u1", mac := "m", firmwareVersion := "f", hardwareVersion := "h",
    vgsSampleRate := "abc", vdsSampleRate := "", tcSampleRate := "12.5" }

/-! ### The window invariant for the ring buffer -/

/-- After feeding `vs` into a fresh buffer of capacity N, the buffer's
fields are determined by `vs`: the count is min(|vs|,N), the head is
|vs| mod N, the sum is the sum of the last min(|vs|,N) values, the
isFullOnce flag records whether N values were ever added, and the slot at
m mod N holds vs[m] for every index m in the live window. -/
def ringInv (N : ℕ) (vs : List ℚ) (s : CircularBuffer) : Prop :=
  s.size = N ∧
  s.data.length = N ∧
  s.count = min vs.length N ∧
  s.head = vs.length % N ∧
  s.sum = (vs.drop (vs.length - N)).sum ∧
  s.isFullOnce = decide (N ≤ vs.length) ∧
  ∀ m, m < vs.length → vs.length ≤ m + N →
    s.data.getD (m % N) 0 = vs.getD m 0

/-! ## Theorems

### Projection lemmas for CircularBuffer.Add -/

theorem Add_size (cb : CircularBuffer) (v : ℚ) : (cb.Add v).size = cb.size := rfl

theorem Add_count (cb : CircularBuffer) (v : ℚ) :
    (cb.Add v).count = if cb.count = cb.size then cb.count else cb.count + 1 := rfl

theorem Add_head (cb : CircularBuffer) (v : ℚ) :
    (cb.Add v).head = (cb.head + 1) % cb.size := rfl

theorem Add_sum (cb : CircularBuffer) (v : ℚ) :
    (cb.Add v).sum
      = (if cb.count = cb.size then cb.sum - cb.data.getD cb.head 0 else cb.sum) + v := rfl

theorem Add_data (cb : CircularBuffer) (v : ℚ) :
    (cb.Add v).data = cb.data.set cb.head v := rfl

theorem Add_isFullOnce (cb : CircularBuffer) (v : ℚ) :
    (cb.Add v).isFullOnce
      = if (if cb.count = cb.size then cb.count else cb.count + 1) = cb.size
            ∧ cb.isFullOnce = false
        then true else cb.isFullOnce := rfl

/-! ### List helper lemmas -/

theorem getD_set_self {α : Type} (l : List α) (i : ℕ) (v d : α)
    (h : i < l.length) : (l.set i v).getD i d = v := by
  rw [List.getD_eq_getElem _ _ (by simpa using h)]
  exact List.getElem_set_self (by simpa using h)

theorem getD_set_ne {α : Type} (l : List α) (i j : ℕ) (v d : α)
    (h : i ≠ j) : (l.set i v).getD j d = l.getD j d := by
  by_cases hj : j < l.length
  · rw [List.getD_eq_getElem _ _ (by simpa using hj),
      List.getD_eq_getElem _ _ hj]
    exact List.getElem_set_ne h _
  · rw [List.getD_eq_default _ _ (by simpa using Nat.le_of_not_lt hj),
      List.getD_eq_default _ _ (Nat.le_of_not_lt hj)]

theorem getD_concat_self {α : Type} (l : List α) (v d : α) :
    (l ++ [v]).getD l.length d = v := by
  rw [List.getD_append_right _ _ _ _ (Nat.le_refl _)]
  simp

/-! ### The ring-buffer invariant -/

theorem ringInv_new (N : ℕ) (hN : 1 ≤ N) : ringInv N [] (NewCircularBuffer N) := by
  refine ⟨rfl, by simp [NewCircularBuffer], by simp [NewCircularBuffer],
    by simp [NewCircularBuffer], by simp [NewCircularBuffer], ?_, ?_⟩
  · simp [NewCircularBuffer]
    omega
  · intro m hm
    simp at hm

theorem ringInv_add (N : ℕ) (hN : 1 ≤ N) (vs : List ℚ) (v : ℚ)
    (s : CircularBuffer) (h : ringInv N vs s) :
    ringInv N (vs ++ [v]) (s.Add v) := by
  obtain ⟨hsz, hlen, hcount, hhead, hsum, hfull, hdata⟩ := h
  have hheadlt : s.head < N := by
    rw [hhead]; exact Nat.mod_lt _ (by omega)
  have hlen' : (vs ++ [v]).length = vs.length + 1 := by simp
  -- the slot invariant is preserved in both cases, prove it once
  have hdata' : ∀ m, m < (vs ++ [v]).length → (vs ++ [v]).length ≤ m + N →
      (s.Add v).data.getD (m % N) 0 = (vs ++ [v]).getD m 0 := by
    intro m hm hge
    rw [hlen'] at hm hge
    rw [Add_data]
    by_cases hmn : m = vs.length
    · subst hmn
      rw [hhead] at *
      rw [getD_set_self _ _ _ _ (by omega), getD_concat_self]
    · have hmlt : m < vs.length := by omega
      have hres : s.head ≠ m % N := by
        rw [hhead]
        intro hcontra
        have hmod : m % N = vs.length % N := hcontra.symm
        have hdvd : N ∣ vs.length - m :=
          (Nat.modEq_iff_dvd' (Nat.le_of_lt hmlt)).mp hmod
        have : N ≤ vs.length - m := Nat.le_of_dvd (by omega) hdvd
        omega
      rw [getD_set_ne _ _ _ _ _ hres, hdata m hmlt (by omega),
        List.getD_append _ _ _ _ hmlt]
  by_cases hfullcase : N ≤ vs.length
  · -- buffer already full: count = N, evict vs[len - N]
    have hcN : s.count = N := by omega
    have hcond : s.count = s.size := by omega
    have hevict : s.data.getD s.head 0 = vs.getD (vs.length - N) 0 := by
      have h1 : (vs.length - N) % N = vs.length % N :=
        (Nat.mod_eq_sub_mod hfullcase).symm
      rw [hhead, ← h1]
      exact hdata (vs.length - N) (by omega) (by omega)
    refine ⟨by rw [Add_size, hsz], by rw [Add_data]; simpa using hlen, ?_, ?_, ?_, ?_, hdata'⟩
    · rw [Add_count, if_pos hcond, hlen']
      omega
    · rw [Add_head, hhead, hsz, Nat.mod_add_mod, hlen']
    · rw [Add_sum, if_pos hcond, hsum, hevict, hlen']
      have hdrop1 : vs.drop (vs.length - N)
          = vs.getD (vs.length - N) 0 :: vs.drop (vs.length - N + 1) := by
        have hlt : vs.length - N < vs.length := by omega
        rw [List.drop_eq_getElem_cons hlt, List.getD_eq_getElem vs 0 hlt]
      have hdrop2 : (vs ++ [v]).drop (vs.length + 1 - N)
          = vs.drop (vs.length - N + 1) ++ [v] := by
        have he : vs.length + 1 - N = vs.length - N + 1 := by omega
        rw [he, List.drop_append_of_le_length (by omega)]
      rw [hdrop2, hdrop1]
      simp only [List.sum_cons, List.sum_append, List.sum_cons, List.sum_nil]
      ring
    · rw [Add_isFullOnce, hlen']
      have hold : s.isFullOnce = true := by
        rw [hfull]; simpa using hfullcase
      rw [hold]
      have : N ≤ vs.length + 1 := by omega
      simp [this]
  · -- buffer not yet full: count = |vs| < N
    have hcn : s.count = vs.length := by omega
    have hcond : ¬ s.count = s.size := by omega
    refine ⟨by rw [Add_size, hsz], by rw [Add_data]; simpa using hlen, ?_, ?_, ?_, ?_, hdata'⟩
    · rw [Add_count, if_neg hcond, hlen']
      omega
    · rw [Add_head, hhead, hsz, Nat.mod_add_mod, hlen']
    · rw [Add_sum, if_neg hcond, hsum, hlen']
      have h1 : vs.length - N = 0 := by omega
      have h2 : vs.length + 1 - N = 0 := by omega
      rw [h1, h2]
      simp
    · rw [Add_isFullOnce, if_neg hcond, hlen']
      have hold : s.isFullOnce = false := by
        rw [hfull]; simpa using hfullcase
      rw [hold, hcn, hsz]
      by_cases hNn : vs.length + 1 = N
      · simp [hNn]
      · have hne : ¬ N ≤ vs.length + 1 := by omega
        simp [hNn, hne]

theorem ringInv_addAll (N : ℕ) (hN : 1 ≤ N) (vs : List ℚ) :
    ringInv N vs (addAll (NewCircularBuffer N) vs) := by
  induction vs using List.reverseRecOn with
  | nil => exact ringInv_new N hN
  | append_singleton l a ih =>
    have he : addAll (NewCircularBuffer N) (l ++ [a])
        = (addAll (NewCircularBuffer N) l).Add a := by
      simp [addAll]
    rw [he]
    exact ringInv_add N hN l a _ ih

/-- C1: for a fresh CircularBuffer of capacity N ≥ 1: with fewer than N
values added, GetAverage is the mean of all added values; with at least N
added, it is the mean of exactly the last N; with no values added it is 0
rather than a failure. -/
theorem circularBuffer_average_spec (N : ℕ) (hN : 1 ≤ N) (vs : List ℚ) :
    (vs.length < N →
      (addAll (NewCircularBuffer N) vs).GetAverage = vs.sum / (vs.length : ℚ)) ∧
    (N ≤ vs.length →
      (addAll (NewCircularBuffer N) vs).GetAverage
        = (vs.drop (vs.length - N)).sum / (N : ℚ)) ∧
    (vs.length = 0 → (addAll (NewCircularBuffer N) vs).GetAverage = 0) := by
  obtain ⟨hsz, hlen, hcount, hhead, hsum, hfull, hdata⟩ := ringInv_addAll N hN vs
  refine ⟨?_, ?_, ?_⟩
  · intro hlt
    by_cases h0 : vs.length = 0
    · have hnil : vs = [] := List.length_eq_zero.mp h0
      subst hnil
      simp [CircularBuffer.GetAverage, hcount]
    · have hc : (addAll (NewCircularBuffer N) vs).count = vs.length := by omega
      rw [CircularBuffer.GetAverage, if_neg (by omega), hc, hsum]
      have he : vs.length - N = 0 := by omega
      rw [he]
      simp
  · intro hge
    have hc : (addAll (NewCircularBuffer N) vs).count = N := by omega
    rw [CircularBuffer.GetAverage, if_neg (by omega), hc, hsum]
  · intro h0
    have hc : (addAll (NewCircularBuffer N) vs).count = 0 := by omega
    simp [CircularBuffer.GetAverage, hc]

/-- Witness for C1 at capacity 2 and inputs [1, 2, 4]: the average is the
mean of the last two values, 3. -/
theorem circularBuffer_average_spec_witness :
    (addAll (NewCircularBuffer 2) [1, 2, 4]).GetAverage
      = (([1, 2, 4] : List ℚ).drop 1).sum / (2 : ℚ) :=
  (circularBuffer_average_spec 2 (by decide) [1, 2, 4]).2.1 (by decide)

/-! ### Decoder composition (C2) -/

theorem processPairs_append (port : ℕ) (sel : Bool) (xs ys : List ℕ) :
    processPairs port sel (xs ++ ys)
      = ((processPairs port sel xs).1
            ++ (processPairs port (processPairs port sel xs).2.1
                  (optToList (processPairs port sel xs).2.2 ++ ys)).1,
          (processPairs port (processPairs port sel xs).2.1
            (optToList (processPairs port sel xs).2.2 ++ ys)).2) := by
  match xs with
  | [] => simp [processPairs, optToList]
  | [b] => simp [processPairs, optToList]
  | b0 :: b1 :: rest =>
    have ih := processPairs_append port (decodeStep port sel (u16 b0 b1)).2 rest ys
    simp only [List.cons_append, processPairs, List.append_eq]
    rw [ih]

/-- Processing an empty chunk changes nothing: the leftover byte (if any)
stays carried and the selector is unchanged. -/
theorem processBytes_nil (port : ℕ) (st : DecState) :
    processBytes port st [] = ([], st) := by
  rcases st with ⟨lo, sel⟩
  cases lo <;> simp [processBytes, processPairs, optToList]

theorem processBytes_append (port : ℕ) (st : DecState) (a b : List ℕ) :
    processBytes port st (a ++ b)
      = ((processBytes port st a).1 ++ (processBytes port (processBytes port st a).2 b).1,
          (processBytes port (processBytes port st a).2 b).2) := by
  rcases st with ⟨lo, sel⟩
  simp only [processBytes]
  rw [← List.append_assoc]
  rw [processPairs_append port sel (optToList lo ++ a) b]

/-- C2: decoding is invariant under chunk boundaries: for every channel
type (port) and every decoder state, feeding any list of chunks to
processBytes sequentially produces exactly the same decoded (ring, value)
sequence and the same final decoder state as feeding the concatenation of
the chunks in one call. -/
theorem sampleDecoder_chunk_invariance (port : ℕ) (st : DecState)
    (chunks : List (List ℕ)) :
    consumeChunks port st chunks = processBytes port st chunks.flatten := by
  induction chunks generalizing st with
  | nil => simp [consumeChunks, List.flatten_nil, processBytes_nil]
  | cons c cs ih =>
    simp only [consumeChunks, List.flatten_cons]
    rw [ih (processBytes port st c).2,
      processBytes_append port st c cs.flatten]

/-! ### Per-channel decode characterizations (C7, C8) -/

theorem processPairs_5555 (sel : Bool) (bs : List ℕ) :
    (processPairs 5555 sel bs).1
      = (u16List bs).map
          (fun u => (RingSel.primary, (toInt16 u : ℚ) * (-1) / 32768 * 2.5)) := by
  match bs with
  | [] => simp [processPairs, u16List]
  | [b] => simp [processPairs, u16List]
  | b0 :: b1 :: rest =>
    have hstep : decodeStep 5555 sel (u16 b0 b1)
        = ((RingSel.primary, (toInt16 (u16 b0 b1) : ℚ) * (-1) / 32768 * 2.5), sel) := by
      simp [decodeStep]
    have ih := processPairs_5555 sel rest
    simp only [processPairs, u16List, List.map_cons, hstep]
    rw [ih]

theorem processPairs_5556 (sel : Bool) (bs : List ℕ) :
    (processPairs 5556 sel bs).1
      = (u16List bs).map
          (fun u : ℕ => (RingSel.primary, (u : ℚ) * 187.5e-6 - 6.144)) := by
  match bs with
  | [] => simp [processPairs, u16List]
  | [b] => simp [processPairs, u16List]
  | b0 :: b1 :: rest =>
    have hstep : decodeStep 5556 sel (u16 b0 b1)
        = ((RingSel.primary, ((u16 b0 b1 : ℕ) : ℚ) * 187.5e-6 - 6.144), sel) := by
      simp [decodeStep]
    have ih := processPairs_5556 sel rest
    simp only [processPairs, u16List, List.map_cons, hstep]
    rw [ih]

theorem processPairs_5557 (sel : Bool) (bs : List ℕ) :
    (processPairs 5557 sel bs).1 = specTypeCInterleave sel (u16List bs) := by
  match bs with
  | [] => simp [processPairs, u16List, specTypeCInterleave]
  | [b] => simp [processPairs, u16List, specTypeCInterleave]
  | b0 :: b1 :: rest =>
    have hstep : decodeStep 5557 sel (u16 b0 b1)
        = ((if sel then (RingSel.primary, (toInt16 (u16 b0 b1) : ℚ) / 4 * 0.03125)
            else (RingSel.secondary, (toInt16 (u16 b0 b1) : ℚ))), !sel) := by
      cases sel <;> simp [decodeStep]
    have ih := processPairs_5557 (!sel) rest
    simp only [processPairs, u16List, specTypeCInterleave, hstep]
    rw [ih]

/-- C7: on the interleaved thermocouple channel (port 5557) a fresh
session starts with the internal sub-channel selected and no carried byte,
and decoding any byte sequence from that state yields exactly the
alternating internal/probe output sequence: samples toggle after every
sample starting with internal, internal samples are transformed
signed16 / 4 * 0.03125 and routed to ring #1 (circularBuffer), probe
samples are the raw signed16 value with no transform, routed to ring #2
(circularBufferB). -/
theorem typeC_interleave_routing (bs : List ℕ) (ip uu : String) (w : ℕ) :
    (NewDataBuffer 5557 ip w uu).tcInterleaveSelectInternal = true ∧
    (NewDataBuffer 5557 ip w uu).leftoverByte = none ∧
    (processBytes 5557 ⟨none, true⟩ bs).1 = specTypeCInterleave true (u16List bs) := by
  refine ⟨by simp [NewDataBuffer], by simp [NewDataBuffer], ?_⟩
  simp only [processBytes, optToList, List.nil_append]
  exact processPairs_5557 true bs

/-- Averaging after exactly two Adds into a fresh ring of capacity at
least 2. -/
theorem GetAverage_add2 (N : ℕ) (hN : 2 ≤ N) (v1 v2 : ℚ) :
    (((NewCircularBuffer N).Add v1).Add v2).GetAverage = (v1 + v2) / 2 := by
  have hc0 : (NewCircularBuffer N).count = 0 := rfl
  have hs0 : (NewCircularBuffer N).size = N := rfl
  have hsum0 : (NewCircularBuffer N).sum = 0 := rfl
  have hc1 : ((NewCircularBuffer N).Add v1).count = 1 := by
    rw [Add_count, hc0, hs0, if_neg (by omega)]
  have hs1 : ((NewCircularBuffer N).Add v1).size = N := by
    rw [Add_size, hs0]
  have hsum1 : ((NewCircularBuffer N).Add v1).sum = 0 + v1 := by
    rw [Add_sum, hc0, hs0, if_neg (by omega), hsum0]
  have hc2 : (((NewCircularBuffer N).Add v1).Add v2).count = 2 := by
    rw [Add_count, hc1, hs1, if_neg (by omega)]
  have hsum2 : (((NewCircularBuffer N).Add v1).Add v2).sum = (0 + v1) + v2 := by
    rw [Add_sum, hc1, hs1, if_neg (by omega), hsum1]
  rw [CircularBuffer.GetAverage, if_neg (by omega), hc2, hsum2]
  push_cast
  ring

/-- The session-level Type B example: feeding bytes 0x00 0x00 0xFF 0xFF
to a fresh port-5556 session leaves ring #1 holding exactly the two decoded
values, with average -3/32000. -/
theorem typeB_session_average_example :
    ((NewDataBuffer 5556 "192_168_1_5" 1000 "").AddData
        [0, 0, 255, 255] 0).1.circularBuffer.GetAverage = -(3 / 32000) := by
  have hcb : ((NewDataBuffer 5556 "192_168_1_5" 1000 "").AddData
        [0, 0, 255, 255] 0).1.circularBuffer
      = ((NewCircularBuffer 1000).Add (((u16 0 0 : ℕ) : ℚ) * 187.5e-6 - 6.144)).Add
          (((u16 255 255 : ℕ) : ℚ) * 187.5e-6 - 6.144) := rfl
  rw [hcb, GetAverage_add2 1000 (by omega)]
  norm_num [u16]

/-- C8 counterexample: on Type B (port 5556), the bytes 0x00 0x00 then
0xFF 0xFF give a second sample value of exactly 98301/16000 = 6.1438125,
which is not within 1/1000 of the claimed 6.146313, and a ring average of
-3/32000 = -0.00009375, not within 1/1000 of the claimed 0.001156. -/
theorem typeB_example_values_counterexample :
    ((processBytes 5556 ⟨none, false⟩ [0, 0, 255, 255]).1.getD 1
        (RingSel.primary, 0)).2 = 98301 / 16000 ∧
    (6.146313 : ℚ) - 98301 / 16000 > 1 / 1000 ∧
    ((NewDataBuffer 5556 "192_168_1_5" 1000 "").AddData
        [0, 0, 255, 255] 0).1.circularBuffer.GetAverage = -(3 / 32000) ∧
    (0.001156 : ℚ) - -(3 / 32000) > 1 / 1000 := by
  refine ⟨?_, by norm_num, typeB_session_average_example, by norm_num⟩
  simp [processBytes, processPairs, decodeStep, optToList, u16]
  norm_num

/-- C8 (amended): for every byte sequence fed to a fresh decoder, every
complete sample on Type A (port 5555) produces signed16 * (-1) / 32768 *
2.5 on ring #1 and on Type B (port 5556) unsigned16 * 187.5e-6 - 6.144 on
ring #1; on Type B the bytes 0x00 0x00 yield -6.144 and 0xFF 0xFF yield
exactly 98301/16000 = 6.1438125 (not ≈ 6.146313), and the session's ring
average after those two samples is -3/32000 = -0.00009375 (not
≈ 0.001156). -/
theorem typeAB_transform_spec (bs : List ℕ) :
    ((processBytes 5555 ⟨none, false⟩ bs).1
      = (u16List bs).map
          (fun u => (RingSel.primary, (toInt16 u : ℚ) * (-1) / 32768 * 2.5))) ∧
    ((processBytes 5556 ⟨none, false⟩ bs).1
      = (u16List bs).map
          (fun u : ℕ => (RingSel.primary, (u : ℚ) * 187.5e-6 - 6.144))) ∧
    ((processBytes 5556 ⟨none, false⟩ [0, 0, 255, 255]).1
      = [(RingSel.primary, -6.144), (RingSel.primary, 98301 / 16000)]) ∧
    (((NewDataBuffer 5556 "192_168_1_5" 1000 "").AddData
        [0, 0, 255, 255] 0).1.circularBuffer.GetAverage = -(3 / 32000)) := by
  refine ⟨?_, ?_, ?_, typeB_session_average_example⟩
  · simp only [processBytes, optToList, List.nil_append]
    exact processPairs_5555 false bs
  · simp only [processBytes, optToList, List.nil_append]
    exact processPairs_5556 false bs
  · simp [processBytes, processPairs, decodeStep, optToList, u16]
    norm_num

/-! ### Session flush behaviour (C5, C9) -/

theorem DB_processBytes_buffer (db : DBModel) (bs : List ℕ) :
    (db.processBytes bs).buffer = db.buffer := rfl

theorem DB_processBytes_port (db : DBModel) (bs : List ℕ) :
    (db.processBytes bs).port = db.port := rfl

theorem DB_processBytes_clientIP (db : DBModel) (bs : List ℕ) :
    (db.processBytes bs).clientIP = db.clientIP := rfl

theorem DB_processBytes_uuid (db : DBModel) (bs : List ℕ) :
    (db.processBytes bs).uuid = db.uuid := rfl

/-- C5: whenever an AddData call makes the accumulation buffer length
reach BUFFER_SIZE (10 MiB), the buffer is reset to empty before AddData
returns and a write task is scheduled carrying a byte-for-byte copy of the
full pre-reset contents (the old buffer plus the newly appended data). -/
theorem addData_flush_at_threshold (db : DBModel) (data : List ℕ) (ts : ℕ)
    (h : BUFFER_SIZE ≤ db.buffer.length + data.length) :
    (db.AddData data ts).1.buffer = [] ∧
    (db.AddData data ts).2
      = some (flushFilename db.port db.clientIP db.uuid ts, db.buffer ++ data) := by
  have hpos : 0 < BUFFER_SIZE := by norm_num [BUFFER_SIZE]
  simp only [DBModel.AddData, DBModel.Flush, DB_processBytes_buffer,
    DB_processBytes_port, DB_processBytes_clientIP, DB_processBytes_uuid,
    List.length_append]
  rw [if_pos h, if_neg (by omega)]
  exact ⟨rfl, rfl⟩

/-- Witness for C5: a fresh session receiving one 10 MiB chunk flushes it
whole and resets its buffer. -/
theorem addData_flush_at_threshold_witness :
    ((NewDataBuffer 5555 "192.168.1.5" 1000 "").AddData
        (List.replicate BUFFER_SIZE 0) 0).1.buffer = [] ∧
    ((NewDataBuffer 5555 "192.168.1.5" 1000 "").AddData
        (List.replicate BUFFER_SIZE 0) 0).2
      = some (flushFilename (NewDataBuffer 5555 "192.168.1.5" 1000 "").port
          (NewDataBuffer 5555 "192.168.1.5" 1000 "").clientIP
          (NewDataBuffer 5555 "192.168.1.5" 1000 "").uuid 0,
          (NewDataBuffer 5555 "192.168.1.5" 1000 "").buffer
            ++ List.replicate BUFFER_SIZE 0) :=
  addData_flush_at_threshold (NewDataBuffer 5555 "192.168.1.5" 1000 "")
    (List.replicate BUFFER_SIZE 0) 0
    (by
      have hb : (NewDataBuffer 5555 "192.168.1.5" 1000 "").buffer = [] := rfl
      rw [hb, List.length_replicate, List.length_nil]
      omega)

/-- C9 counterexample: the Shutdown final-flush filename omits the uuid
even when one is known, and the normal Flush filename keeps an empty uuid
component (double underscore) when the uuid is unknown; both disagree with
the claimed port{PORT}_{ip}[_{uuid}]_{ts}.bin scheme. -/
theorem captureFilename_counterexample :
    shutdownFlushFilename 5555 "192_168_1_5" 42
      ≠ claimedCaptureFilename 5555 "192_168_1_5" (some "u1") 42 ∧
    flushFilename 5555 "192_168_1_5" "" 42
      ≠ claimedCaptureFilename 5555 "192_168_1_5" none 42 := by
  refine ⟨by decide, by decide⟩

/-- C9 (amended): for every session with a nonempty buffer, the normal
Flush path schedules a write named with the uuid component always present
(port{PORT}_{ip}_{uuid}_{ts}.bin, the uuid possibly empty), and the final
Shutdown flush writes port{PORT}_{ip}_{ts}.bin with the uuid always
omitted; both carry the full buffer contents. -/
theorem captureFilename_spec (db : DBModel) (ts : ℕ) (h : db.buffer ≠ []) :
    (db.Flush ts).2
      = some (claimedCaptureFilename db.port db.clientIP (some db.uuid) ts, db.buffer) ∧
    (shutdownFlushBuffer db ts).2
      = some (claimedCaptureFilename db.port db.clientIP none ts, db.buffer) := by
  have h0 : ¬ db.buffer.length = 0 := by
    simpa using h
  have hname : flushFilename db.port db.clientIP db.uuid ts
      = claimedCaptureFilename db.port db.clientIP (some db.uuid) ts := by
    simp [flushFilename, claimedCaptureFilename, String.append_assoc]
  have hname2 : shutdownFlushFilename db.port db.clientIP ts
      = claimedCaptureFilename db.port db.clientIP none ts := by
    simp [shutdownFlushFilename, claimedCaptureFilename, String.append_assoc]
  constructor
  · rw [DBModel.Flush, if_neg h0, hname]
  · rw [shutdownFlushBuffer, hname2]
    simp [h0]

/-- Witness for C9 (amended) at a concrete nonempty session. -/
theorem captureFilename_spec_witness :
    (dbNonempty.Flush 42).2
      = some (claimedCaptureFilename dbNonempty.port dbNonempty.clientIP
          (some dbNonempty.uuid) 42, dbNonempty.buffer) ∧
    (shutdownFlushBuffer dbNonempty 42).2
      = some (claimedCaptureFilename dbNonempty.port dbNonempty.clientIP
          none 42, dbNonempty.buffer) :=
  captureFilename_spec dbNonempty 42 (by decide)

/-! ### Handshake UUID retrofit (C3) -/

/-- C3: the code does not retrofit the UUID onto already-open sessions for
a dotted client IP. Sessions are stored under the raw client IP
("192.168.1.5"), but the handshake handler compares each key against the
sanitized IP ("192_168_1_5"), so after a handshake carrying UUID "u1" the
existing session's uuid field is still "", contradicting the claim (and
the code's own comment "Update existing data buffers with this UUID"). -/
theorem handshake_uuid_retrofit_code_bug :
    SanitizeFilename "192.168.1.5" = "192_168_1_5" ∧
    (handshakeUpdateBuffers
        [(key0, NewDataBuffer 5555 "192.168.1.5" 1000 "")]
        "192.168.1.5" "u1").map (fun kv => kv.2.uuid) = [""] := by
  refine ⟨by decide, by decide⟩

/-! ### Connection registry (C4, C6) -/

theorem mapFind_insert_self {α : Type} (m : List (BufferKey × α)) (k : BufferKey)
    (v : α) : mapFind (mapInsert m k v) k = some v := by
  induction m with
  | nil => simp [mapInsert, mapFind]
  | cons kv rest ih =>
    by_cases hk : kv.1 = k
    · simp [mapInsert, hk, mapFind]
    · simp [mapInsert, hk, mapFind, ih]

/-- C4 counterexample: in the eviction scenario (connection 1 registered,
then connection 2 registered for the same key, then connection 1's handler
cleanup runs) the evicted handle 1 is closed twice — once by
registerConnection's eviction and once unconditionally by the evicted
handler's own deferred cleanup — not exactly once as claimed. -/
theorem connection_close_count_counterexample :
    countClose evictionScenarioTrace 1 = 2 ∧
    countClose evictionScenarioTrace 1 ≠ 1 := by
  refine ⟨by decide, by decide⟩

/-- C4 (amended): when a second connection c2 is registered for a key
currently held by c1, registerConnection emits exactly one close of c1 and
it precedes the store of c2; the evicted connection's handler cleanup then
unconditionally closes c1 once more (after flushing), so across the two
paths c1 receives exactly two close calls in total. -/
theorem eviction_close_per_path (s : List (BufferKey × ℕ))
    (bufs : List (BufferKey × ℕ)) (key : BufferKey) (c1 c2 : ℕ)
    (h : mapFind s key = some c1) (hne : c1 ≠ c2) :
    (registerConnection s key c2).1
      = [ConnEvent.close c1, ConnEvent.store key c2] ∧
    (handleConnCleanup (registerConnection s key c2).2 bufs key c1).1
      = [ConnEvent.flushBuffer key, ConnEvent.close c1] ∧
    countClose ((registerConnection s key c2).1
        ++ (handleConnCleanup (registerConnection s key c2).2 bufs key c1).1) c1
      = 2 := by
  have hfind : mapFind (mapInsert s key c2) key = some c2 :=
    mapFind_insert_self s key c2
  have h1 : (registerConnection s key c2).1
      = [ConnEvent.close c1, ConnEvent.store key c2] := by
    simp [registerConnection, h]
  have h2 : (handleConnCleanup (registerConnection s key c2).2 bufs key c1).1
      = [ConnEvent.flushBuffer key, ConnEvent.close c1] := by
    have hreg : (registerConnection s key c2).2 = mapInsert s key c2 := rfl
    rw [hreg]
    simp [handleConnCleanup, hfind, Ne.symm hne]
  refine ⟨h1, h2, ?_⟩
  rw [h1, h2]
  simp [countClose, isClose]

/-- Witness for C4 (amended) at the concrete eviction scenario. -/
theorem eviction_close_per_path_witness :
    (registerConnection [(key0, 1)] key0 2).1
      = [ConnEvent.close 1, ConnEvent.store key0 2] ∧
    (handleConnCleanup (registerConnection [(key0, 1)] key0 2).2
        ([] : List (BufferKey × ℕ)) key0 1).1
      = [ConnEvent.flushBuffer key0, ConnEvent.close 1] ∧
    countClose ((registerConnection [(key0, 1)] key0 2).1
        ++ (handleConnCleanup (registerConnection [(key0, 1)] key0 2).2
              ([] : List (BufferKey × ℕ)) key0 1).1) 1 = 2 :=
  eviction_close_per_path [(key0, 1)] [] key0 1 2 (by decide) (by decide)

/-- C6: the handler cleanup removes the activeConns entry and the buffers
entry for its key only when the exiting connection is still the handle on
record; a connection that was replaced leaves both maps untouched, and a
still-current connection removes exactly its own two entries. -/
theorem cleanup_only_if_current (s : List (BufferKey × ℕ))
    (bufs : List (BufferKey × ℕ)) (key : BufferKey) (conn : ℕ) :
    (mapFind s key ≠ some conn →
      (handleConnCleanup s bufs key conn).2.1 = s ∧
      (handleConnCleanup s bufs key conn).2.2 = bufs) ∧
    (mapFind s key = some conn →
      (handleConnCleanup s bufs key conn).2.1 = mapErase s key ∧
      (handleConnCleanup s bufs key conn).2.2 = mapErase bufs key) := by
  constructor
  · intro h
    unfold handleConnCleanup
    cases hf : mapFind s key with
    | none => simp
    | some cur =>
      have hc : ¬ cur = conn := fun hc => h (by rw [hf, hc])
      simp [hc]
  · intro h
    unfold handleConnCleanup
    rw [h]
    simp

/-- Witness for C6: a connection that lost the race (registry holds 2, the
exiting connection is 1) deletes neither the registry entry nor the
session. -/
theorem cleanup_only_if_current_witness :
    (handleConnCleanup [(key0, 2)] [(key0, 5)] key0 1).2.1 = [(key0, 2)] ∧
    (handleConnCleanup [(key0, 2)] [(key0, 5)] key0 1).2.2 = [(key0, 5)] :=
  (cleanup_only_if_current [(key0, 2)] [(key0, 5)] key0 1).1 (by decide)

/-! ### Handshake sample-rate parsing (C10) -/

theorem atoi_bad_shape (s : String) (h : intStringShapeOK s = false) :
    (atoi s).1 = 0 := by
  simp [atoi, h]

/-- C10: a handshake whose required UUID is present is accepted and
applied even when sample-rate fields fail integer parsing; each field that
is not the decimal representation of an integer is stored as 0, the parse
error being discarded. -/
theorem handshake_rate_parse_tolerated (existing : Option IPConnection)
    (hd : HandshakeData) (h : hd.uuid ≠ "") :
    ∃ r, handleHandshake existing hd = some r
      ∧ (intStringShapeOK hd.vgsSampleRate = false → r.vgsSampleRate = 0)
      ∧ (intStringShapeOK hd.vdsSampleRate = false → r.vdsSampleRate = 0)
      ∧ (intStringShapeOK hd.tcSampleRate = false → r.tcSampleRate = 0) := by
  rcases existing with _ | ipc
  · refine ⟨{
      activePorts := []
      totalBytes := 0
      uuid := hd.uuid
      mac := hd.mac
      firmwareVersion := hd.firmwareVersion
      hardwareVersion := hd.hardwareVersion
      vdsSampleRate := (atoi hd.vdsSampleRate).1
      vgsSampleRate := (atoi hd.vgsSampleRate).1
      tcSampleRate := (atoi hd.tcSampleRate).1 }, ?_, ?_, ?_, ?_⟩
    · simp [handleHandshake, h]
    · exact fun hb => atoi_bad_shape _ hb
    · exact fun hb => atoi_bad_shape _ hb
    · exact fun hb => atoi_bad_shape _ hb
  · refine ⟨{ ipc with
      uuid := hd.uuid
      firmwareVersion := hd.firmwareVersion
      hardwareVersion := hd.hardwareVersion
      mac := hd.mac
      vdsSampleRate := (atoi hd.vdsSampleRate).1
      vgsSampleRate := (atoi hd.vgsSampleRate).1
      tcSampleRate := (atoi hd.tcSampleRate).1 }, ?_, ?_, ?_, ?_⟩
    · simp [handleHandshake, h]
    · exact fun hb => atoi_bad_shape _ hb
    · exact fun hb => atoi_bad_shape _ hb
    · exact fun hb => atoi_bad_shape _ hb

/-- Witness for C10: the handshake hdBad (UUID "u1"; rates "abc", "",
"12.5") is accepted and all three rates are stored as 0. -/
theorem handshake_rate_parse_tolerated_witness :
    ∃ r, handleHandshake none hdBad = some r
      ∧ r.vgsSampleRate = 0 ∧ r.vdsSampleRate = 0 ∧ r.tcSampleRate = 0 := by
  obtain ⟨r, hr, h1, h2, h3⟩ :=
    handshake_rate_parse_tolerated none hdBad (by decide)
  exact ⟨r, hr, h1 (by decide), h2 (by decide), h3 (by decide)⟩

end EthDaq
